import Mathlib

/-!
Shallow embedding of `src/energy-analysis.py`, a single-pass pandas pipeline:
load → normalize column names → detect datetime/power columns → coerce power
to numeric and drop incomplete rows → resample to hourly means → derive
peak classification, rolling 24h trend, anomaly flags and efficiency scores.

Modelling conventions:
* timestamps are natural numbers (seconds since an epoch); the calendar hour
  of a timestamp is `t / 3600` (`pd.resample("H")` floors to hour boundaries);
* missing values (`NaN`) are modelled by `Option ℚ`: pandas reductions
  (`mean`, `std`, `max`, `quantile`) skip missing values and return `NaN`
  (here `none`) when no value remains; float comparisons against `NaN` are
  false, which the embedding reproduces at each `match`;
* exact rationals replace IEEE floats; no claim below depends on rounding.
-/

namespace EnergyAnalysis

/-- `pat` occurs at the head of `cs`. -/
def leadsWith : List Char → List Char → Bool
  | [], _ => true
  | _ :: _, [] => false
  | p :: ps, c :: cs => p == c && leadsWith ps cs

/-- `pat` occurs somewhere in `cs` (char-level model of Python `in`). -/
def hasSub : List Char → List Char → Bool
  | [], pat => pat.isEmpty
  | c :: cs, pat => leadsWith pat (c :: cs) || hasSub cs pat

/-- Python's `sub in s` on strings. -/
def containsSub (s sub : String) : Bool :=
  hasSub s.data sub.data

/-- Leading and trailing whitespace removed (Python `str.strip()`). -/
def stripChars (cs : List Char) : List Char :=
  ((cs.dropWhile Char.isWhitespace).reverse.dropWhile Char.isWhitespace).reverse

/-- `df.columns.str.lower().str.strip()` (line 11): normalize a column name. -/
def normalizeName (s : String) : String :=
  String.mk (stripChars (s.data.map Char.toLower))

/-- The datetime heuristic of line 19: `"date" in c or "time" in c`. -/
def isDatetimeName (c : String) : Bool :=
  containsSub c "date" || containsSub c "time"

/-- The power heuristic of lines 31-32:
`"power" in c or "consumption" in c or "energy" in c`. -/
def isPowerName (c : String) : Bool :=
  containsSub c "power" || containsSub c "consumption" || containsSub c "energy"

/-- Line 19: `[c for c in df.columns if "date" in c or "time" in c]`. -/
def datetime_candidates (cols : List String) : List String :=
  cols.filter isDatetimeName

/-- Lines 30-33: `[c for c in df.columns if "power" in c or "consumption" in c
or "energy" in c]`. -/
def power_candidates (cols : List String) : List String :=
  cols.filter isPowerName

/-- Lines 19-23: pick `datetime_candidates[0]`, or raise
`Exception("No datetime column found in dataset")` when the list is empty. -/
def detectDatetime (cols : List String) : Except String String :=
  match datetime_candidates cols with
  | [] => .error "No datetime column found in dataset"
  | c :: _ => .ok c

/-- Lines 30-38: pick `power_candidates[0]`, or raise
`Exception("No power/consumption column found")` when the list is empty. -/
def detectPower (cols : List String) : Except String String :=
  match power_candidates cols with
  | [] => .error "No power/consumption column found"
  | c :: _ => .ok c

/-- One row of the table after the datetime column became the index and the
power column was passed through `pd.to_numeric(..., errors="coerce")`
(line 39): `time` is the parsed index value, `power` is the coerced power
cell (`none` when the cell failed numeric coercion), `others` are the cells
of the remaining columns (`none` where the source cell was missing). -/
structure Row where
  time : ℕ
  power : Option ℚ
  others : List (Option ℚ)
deriving DecidableEq, Repr

/-- Line 40: `df.dropna(inplace=True)` keeps a row iff every column cell of
that row is non-missing (the index is not consulted). -/
def rowComplete (r : Row) : Bool :=
  r.power.isSome && r.others.all Option.isSome

/-- The cleaner: rows surviving `df.dropna(inplace=True)` (line 40). -/
def clean (rows : List Row) : List Row :=
  rows.filter rowComplete

/-- `resample("H")` floors each timestamp to its calendar hour bucket. -/
def hourOf (t : ℕ) : ℕ :=
  t / 3600

/-- Arithmetic mean of a list of rationals (`0` on `[]`, never used there). -/
def listMean (xs : List ℚ) : ℚ :=
  xs.sum / (xs.length : ℚ)

/-- The power values of exactly those cleaned rows whose timestamp falls in
calendar hour `h`. -/
def samplesInHour (rows : List (ℕ × ℚ)) (h : ℕ) : List ℚ :=
  (rows.filter (fun p => hourOf p.1 == h)).map Prod.snd

/-- Earliest timestamp of the cleaned series (`0` on `[]`, never used there). -/
def tsMin : List (ℕ × ℚ) → ℕ
  | [] => 0
  | p :: ps => ps.foldl (fun a q => min a q.1) p.1

/-- Latest timestamp of the cleaned series (`0` on `[]`, never used there). -/
def tsMax : List (ℕ × ℚ) → ℕ
  | [] => 0
  | p :: ps => ps.foldl (fun a q => max a q.1) p.1

/-- The mean `resample("H").mean()` assigns to bucket `h`: `NaN` (`none`) when
the bucket holds no sample, else the arithmetic mean of its samples. -/
def bucketLoad (rows : List (ℕ × ℚ)) (h : ℕ) : Option ℚ :=
  if (samplesInHour rows h).isEmpty then none
  else some (listMean (samplesInHour rows h))

/-- Line 45: `df[power_col].resample("H").mean()` — one record per calendar
hour from the hour of the earliest timestamp to the hour of the latest,
inclusive; empty buckets yield `NaN` loads. Empty input gives an empty
series. -/
def hourly_data (rows : List (ℕ × ℚ)) : List (ℕ × Option ℚ) :=
  match rows with
  | [] => []
  | _ :: _ =>
    (List.range' (hourOf (tsMin rows)) (hourOf (tsMax rows) - hourOf (tsMin rows) + 1)).map
      (fun h => (h, bucketLoad rows h))

/-- The non-missing entries of the hourly `Load` column, in order: the values
every pandas skipna reduction (`mean`, `std`, `max`, `quantile`) works on. -/
def definedLoads (hs : List (Option ℚ)) : List ℚ :=
  hs.filterMap id

/-- Line 78: `hourly_df["Load"].mean()` — skipna mean, `NaN` when no value
remains. -/
def mean_load (hs : List (Option ℚ)) : Option ℚ :=
  if (definedLoads hs).isEmpty then none
  else some (listMean (definedLoads hs))

/-- Line 79 squared: `hourly_df["Load"].std()` is the sample standard
deviation (pandas default `ddof=1`) over the non-missing loads, `NaN` when
fewer than two remain. The embedding carries its square — the variance
`Σ (x - mean)² / (n - 1)` — since `std` itself is an irrational square root;
every comparison against `std` in the source is rendered through
`Real.sqrt` of this value in the theorems below. -/
def var_load (hs : List (Option ℚ)) : Option ℚ :=
  if (definedLoads hs).length < 2 then none
  else some (((definedLoads hs).map
      (fun x => (x - listMean (definedLoads hs)) ^ 2)).sum /
    (((definedLoads hs).length : ℚ) - 1))

/-- Line 52: `hourly_df["Load"].quantile(0.75)` — linear-interpolation 75th
percentile of the sorted non-missing loads, `NaN` when none remain. -/
def peak_threshold (hs : List (Option ℚ)) : Option ℚ :=
  match List.insertionSort (· ≤ ·) (definedLoads hs) with
  | [] => none
  | v =>
    let pos : ℚ := 3 / 4 * ((v.length : ℚ) - 1)
    let k : ℕ := ⌊pos⌋.toNat
    let frac : ℚ := pos - (k : ℚ)
    some (v.getD k 0 + frac * (v.getD (k + 1) (v.getD k 0) - v.getD k 0))

/-- Lines 53-57: `np.where(Load >= peak_threshold, "Peak", "Off-Peak")`.
A float comparison against `NaN` is false, so a missing load — or a missing
threshold — lands in the `"Off-Peak"` branch; this is the `match`
fallthrough. -/
def peak_type (thr : Option ℚ) (l : Option ℚ) : String :=
  match l, thr with
  | some x, some t => if t ≤ x then "Peak" else "Off-Peak"
  | _, _ => "Off-Peak"

/-- The `Peak_Type` column of the hourly table. -/
def peakTypeColumn (hs : List (Option ℚ)) : List String :=
  hs.map (peak_type (peak_threshold hs))

/-- Line 62: `hourly_df["Load"].rolling(24).mean()` at position `i`. With a
fixed window of 24 positions, `min_periods` defaults to 24, so the value is
defined only when the trailing window `hs[i-23..i]` exists in full and all
24 observations are non-missing; it is then their arithmetic mean. -/
def rolling_24h (hs : List (Option ℚ)) (i : ℕ) : Option ℚ :=
  let obs := ((hs.take (i + 1)).drop (i + 1 - 24)).filterMap id
  if obs.length < 24 then none else some (listMean obs)

/-- Lines 81-85: `np.where((Load > mean + 2*std) | (Load < mean - 2*std), 1, 0)`.
Over exact arithmetic the float condition is `(x - mean)² > 4·var` (with
`std = √var`; equivalence proved in `abs_sub_gt_two_sqrt_iff` below). When
the load, the mean or the std is `NaN`, both float comparisons are false and
the flag is `0` — the `match` fallthrough. -/
def anomaly (hs : List (Option ℚ)) (l : Option ℚ) : ℕ :=
  match l, mean_load hs, var_load hs with
  | some x, some m, some v => if 4 * v < (x - m) ^ 2 then 1 else 0
  | _, _, _ => 0

/-- The `Anomaly` column of the hourly table. -/
def anomalyColumn (hs : List (Option ℚ)) : List ℕ :=
  hs.map (anomaly hs)

/-- Line 129: `hourly_df["Anomaly"].sum()`. -/
def anomalyCount (hs : List (Option ℚ)) : ℕ :=
  (anomalyColumn hs).sum

/-- Line 90: `hourly_df["Load"].max()` — skipna maximum, `NaN` when no value
remains. -/
def max_load (hs : List (Option ℚ)) : Option ℚ :=
  match definedLoads hs with
  | [] => none
  | x :: xs => some (xs.foldl max x)

/-- Lines 91-92: `100 - (load / max_load * 100)` then `.clip(0, 100)`
(`clip(lo, hi, x) = min hi (max lo x)`). The rational embedding does not
model IEEE division by zero: no theorem below evaluates this at
`m = 0`, the case the spec marks degenerate. -/
def efficiency_score (m x : ℚ) : ℚ :=
  min 100 (max 0 (100 - x / m * 100))

/-- The `Efficiency_Score` column: when `max_load` is `NaN` every score is
`NaN` (float arithmetic with `NaN` propagates, and `clip` keeps `NaN`);
a missing load likewise yields a missing score. -/
def efficiencyColumn (hs : List (Option ℚ)) : List (Option ℚ) :=
  match max_load hs with
  | none => hs.map (fun _ => none)
  | some m => hs.map (fun l => l.map (fun x => efficiency_score m x))

/-- Line 130-131: `hourly_df["Efficiency_Score"].mean()` — skipna mean of the
score column, `NaN` when it has no defined entry. -/
def avgEfficiency (hs : List (Option ℚ)) : Option ℚ :=
  mean_load (efficiencyColumn hs)

/-- The three scalars the script prints (lines 128-131) together with the
hourly table. -/
structure Report where
  hourly : List (ℕ × Option ℚ)
  peakThr : Option ℚ
  anomalies : ℕ
  avgEff : Option ℚ
deriving DecidableEq, Repr

/-- Control-flow skeleton of the script: the two schema checks (lines 19-36)
abort the run before any cleaning or aggregation; past them the script runs
to the end unconditionally — lines 39-131 contain no `raise`. `rows` is the
table body with the detected power column and the remaining columns already
coerced as in `Row`. -/
def runPipeline (header : List String) (rows : List Row) : Except String Report := do
  let _ ← detectDatetime (header.map normalizeName)
  let _ ← detectPower (header.map normalizeName)
  let cleaned := clean rows
  let series := cleaned.filterMap (fun r => r.power.map (fun v => (r.time, v)))
  let hourly := hourly_data series
  let loads := hourly.map Prod.snd
  pure ⟨hourly, peak_threshold loads, anomalyCount loads, avgEfficiency loads⟩

/-- Formalisation of the spec's words, for comparison with `detectPower`
(it is not part of the source): select the power field by substring
precedence — a name containing "power" first, then one containing
"consumption", then one containing "energy" — the precedence winning over
the original column ordering. -/
def specPrecedencePower (cols : List String) : Option String :=
  match cols.filter (fun c => containsSub c "power") with
  | c :: _ => some c
  | [] =>
    match cols.filter (fun c => containsSub c "consumption") with
    | c :: _ => some c
    | [] =>
      match cols.filter (fun c => containsSub c "energy") with
      | c :: _ => some c
      | [] => none

/-- Formalisation of the spec's words, for comparison with `var_load`
(it is not part of the source): the population variance, denominator `n`. -/
def populationVar (xs : List ℚ) : ℚ :=
  (xs.map (fun x => (x - listMean xs) ^ 2)).sum / (xs.length : ℚ)

lemma filter_head?_eq_find? (p : α → Bool) (l : List α) :
    (l.filter p).head? = l.find? p := by
  induction l with
  | nil => rfl
  | cons a t ih => by_cases h : p a <;> simp [List.filter_cons, List.find?_cons, h, ih]

/-- C2 counterexample: a row whose power value parses as numeric (`some 5`)
but whose other field is missing is dropped by `df.dropna()`, contradicting
"a row whose power value parses as numeric survives cleaning even if some
other field of that row is missing". -/
theorem clean_drops_numeric_power_row :
    (Row.mk 0 (some 5) [none]).power = some 5 ∧
    clean [Row.mk 0 (some 5) [none]] = [] :=
  ⟨rfl, rfl⟩

/-- C2 (amended): the cleaner keeps a row iff every field of the row — the
power field and all remaining columns — is non-missing after coercion; in
particular a row whose only defect is an unparseable power value is dropped
entirely, but a numeric power value alone does not guarantee survival. -/
theorem clean_mem_iff (rows : List Row) (r : Row) :
    r ∈ clean rows ↔
      r ∈ rows ∧ r.power.isSome = true ∧ r.others.all Option.isSome = true := by
  simp [clean, rowComplete, List.mem_filter, Bool.and_eq_true, and_assoc]

/-- C3 counterexample: with normalized header `["energy_total", "power_x"]`
the code selects `"energy_total"` (first in column order), while the claimed
substring precedence would select `"power_x"`. -/
theorem power_precedence_counterexample :
    detectPower ["energy_total", "power_x"] = .ok "energy_total" ∧
    specPrecedencePower ["energy_total", "power_x"] = some "power_x" ∧
    "energy_total" ≠ ("power_x" : String) :=
  ⟨rfl, rfl, by decide⟩

/-- C3 (amended): the schema inferencer selects as power field the first
name in the original column ordering whose normalized form contains
"power", "consumption" or "energy"; there is no precedence among the three
substrings. -/
theorem detectPower_first_in_column_order (cols : List String) (c : String) :
    detectPower cols = .ok c ↔ cols.find? isPowerName = some c := by
  unfold detectPower power_candidates
  rw [← filter_head?_eq_find? isPowerName cols]
  rcases h : cols.filter isPowerName with _ | ⟨a, t⟩ <;> simp

/-- C4: on a degenerate input — the single row's power value fails numeric
coercion, so every row is dropped — the pipeline runs to completion and
returns a zero-row hourly table with `NaN` peak threshold and `NaN` average
efficiency score; no `DegenerateInputError` (or any error) is raised
anywhere after the schema checks. -/
theorem degenerate_input_runs_to_completion :
    runPipeline ["datetime", "power"] [Row.mk 0 none []] =
      .ok (Report.mk [] none 0 none) :=
  rfl

/-- C9: a record whose hourly load is missing is classified `"Off-Peak"` —
the float comparison `NaN >= peak_threshold` is false, so `np.where` takes
the `"Off-Peak"` branch, whatever the threshold is. -/
theorem missing_load_is_off_peak (hs : List (Option ℚ)) (i : ℕ)
    (hi : i < hs.length) (hmiss : hs.getD i (some 0) = none) :
    (peakTypeColumn hs).getD i "" = "Off-Peak" := by
  have hm : i < (peakTypeColumn hs).length := by simpa [peakTypeColumn] using hi
  rw [List.getD_eq_getElem _ _ hm]
  rw [List.getD_eq_getElem _ _ hi] at hmiss
  simp only [peakTypeColumn, List.getElem_map, hmiss]
  rfl

/-- C9 witness at the one-record all-missing series. -/
theorem missing_load_is_off_peak_witness :
    (peakTypeColumn [none]).getD 0 "" = "Off-Peak" :=
  missing_load_is_off_peak [none] 0 (by simp) rfl

/-- C7 counterexample: for the series `[-1]` the maximum load is defined
(`-1`), yet the efficiency score increases with the load: at load `-1` it is
`0` and at the larger load `-1/2` it is `50`, so the score is not
monotonically non-increasing for every series with defined `max_load`. -/
theorem efficiency_not_monotone_counterexample :
    max_load [some (-1)] = some (-1) ∧ ((-1 : ℚ) < -1/2) ∧
    efficiency_score (-1) (-1) < efficiency_score (-1) (-1/2) :=
  ⟨rfl, by norm_num, by norm_num [efficiency_score]⟩

/-- C7 (amended): for every hourly series whose defined `max_load` is
positive, the efficiency score is monotonically non-increasing in the load
and lies in `[0, 100]` for every load value, including loads above
`max_load` that the clamp rescues from going negative. -/
theorem efficiency_score_monotone_bounded (hs : List (Option ℚ)) (m : ℚ)
    (_hmax : max_load hs = some m) (hm : 0 < m) (x y : ℚ) (hxy : x ≤ y) :
    efficiency_score m y ≤ efficiency_score m x ∧
    0 ≤ efficiency_score m x ∧ efficiency_score m x ≤ 100 := by
  unfold efficiency_score
  refine ⟨?_, le_min (by norm_num) (le_max_left 0 _), min_le_left _ _⟩
  have hdiv : x / m ≤ y / m := by gcongr
  have hkey : 100 - y / m * 100 ≤ 100 - x / m * 100 := by linarith
  exact min_le_min le_rfl (max_le_max le_rfl hkey)

/-- C7 witness at the series `[2]` with loads `1 ≤ 3`. -/
theorem efficiency_score_monotone_bounded_witness :
    efficiency_score 2 3 ≤ efficiency_score 2 1 ∧
    0 ≤ efficiency_score 2 1 ∧ efficiency_score 2 1 ≤ 100 :=
  efficiency_score_monotone_bounded [some 2] 2 rfl (by norm_num) 1 3 (by norm_num)

/-- C8 counterexample: the code raises a plain exception whose messages are
`"No datetime column found in dataset"` and `"No power/consumption column
found"`, not `SchemaError("no datetime column")` / `SchemaError("no power
column")`. -/
theorem schema_error_message_differs :
    detectDatetime ["foo"] = .error "No datetime column found in dataset" ∧
    "No datetime column found in dataset" ≠ "no datetime column" ∧
    detectPower ["foo"] = .error "No power/consumption column found" ∧
    "No power/consumption column found" ≠ "no power column" :=
  ⟨rfl, by decide, rfl, by decide⟩

/-- C8 (amended): when no normalized header name contains "date" or "time"
the pipeline aborts with the exception message `"No datetime column found in
dataset"`; when a datetime candidate exists but no normalized name contains
"power", "consumption" or "energy" it aborts with `"No power/consumption
column found"`; the candidate lists are empty exactly when no name matches
the heuristics, the abort happens before any cleaning or aggregation, and no
fallback column is substituted. -/
theorem schema_errors_abort (header : List String) (rows : List Row) :
    (datetime_candidates (header.map normalizeName) = [] →
      runPipeline header rows = .error "No datetime column found in dataset") ∧
    (datetime_candidates (header.map normalizeName) ≠ [] →
      power_candidates (header.map normalizeName) = [] →
      runPipeline header rows = .error "No power/consumption column found") ∧
    (datetime_candidates (header.map normalizeName) = [] ↔
      ∀ c ∈ header.map normalizeName, isDatetimeName c = false) ∧
    (power_candidates (header.map normalizeName) = [] ↔
      ∀ c ∈ header.map normalizeName, isPowerName c = false) := by
  refine ⟨?_, ?_, ?_, ?_⟩
  · intro h
    unfold runPipeline
    rw [show detectDatetime (header.map normalizeName) =
        Except.error "No datetime column found in dataset" from by
      unfold detectDatetime; rw [h]]
    rfl
  · intro h1 h2
    rcases hd : datetime_candidates (header.map normalizeName) with _ | ⟨c, cs⟩
    · exact absurd hd h1
    unfold runPipeline
    rw [show detectDatetime (header.map normalizeName) = Except.ok c from by
      unfold detectDatetime; rw [hd]]
    rw [show detectPower (header.map normalizeName) =
        Except.error "No power/consumption column found" from by
      unfold detectPower; rw [h2]]
    rfl
  · simp [datetime_candidates, List.filter_eq_nil_iff]
  · simp [power_candidates, List.filter_eq_nil_iff]

/-- C8 witness: a header with no datetime-like column aborts the run. -/
theorem schema_errors_abort_witness :
    runPipeline ["foo"] [] = .error "No datetime column found in dataset" :=
  (schema_errors_abort ["foo"] []).1 rfl

/-- C10: the variance behind `std_load` divides the sum of squared
deviations by `n - 1` (Bessel-corrected sample variance, pandas default
`ddof=1`): whenever `std_load` is defined, at least two loads are
non-missing and the variance times `n - 1` equals the population variance
times `n`. -/
theorem var_load_is_sample_not_population (hs : List (Option ℚ)) (v : ℚ)
    (h : var_load hs = some v) :
    2 ≤ (definedLoads hs).length ∧
    v * (((definedLoads hs).length : ℚ) - 1) =
      populationVar (definedLoads hs) * ((definedLoads hs).length : ℚ) := by
  unfold var_load at h
  by_cases hn : (definedLoads hs).length < 2
  · rw [if_pos hn] at h
    exact absurd h (by simp)
  · rw [if_neg hn] at h
    push_neg at hn
    rw [Option.some_inj] at h
    refine ⟨hn, ?_⟩
    have hn2 : (2 : ℚ) ≤ ((definedLoads hs).length : ℚ) := by exact_mod_cast hn
    have hn1 : ((definedLoads hs).length : ℚ) - 1 ≠ 0 := by linarith
    have hn0 : ((definedLoads hs).length : ℚ) ≠ 0 := by linarith
    rw [← h, div_mul_cancel₀ _ hn1]
    unfold populationVar
    rw [div_mul_cancel₀ _ hn0]

/-- C10 witness at the series `[0, 2]`: sample variance `2`, population
variance `1`. -/
theorem var_load_is_sample_not_population_witness :
    2 ≤ (definedLoads [some (0:ℚ), some 2]).length ∧
    (2:ℚ) * (((definedLoads [some (0:ℚ), some 2]).length : ℚ) - 1) =
      populationVar (definedLoads [some (0:ℚ), some 2]) *
        ((definedLoads [some (0:ℚ), some 2]).length : ℚ) :=
  var_load_is_sample_not_population [some 0, some 2] 2
    (by norm_num [var_load, definedLoads, listMean, List.filterMap_cons, List.filterMap_nil])

lemma var_load_nonneg (hs : List (Option ℚ)) (v : ℚ) (h : var_load hs = some v) :
    0 ≤ v := by
  unfold var_load at h
  by_cases hn : (definedLoads hs).length < 2
  · rw [if_pos hn] at h
    exact absurd h (by simp)
  · rw [if_neg hn] at h
    push_neg at hn
    rw [Option.some_inj] at h
    rw [← h]
    apply div_nonneg
    · apply List.sum_nonneg
      intro a ha
      rw [List.mem_map] at ha
      obtain ⟨y, _, rfl⟩ := ha
      positivity
    · have : (2 : ℚ) ≤ ((definedLoads hs).length : ℚ) := by exact_mod_cast hn
      linarith

/-- Over the reals, `|d| > 2·√v` is exactly `d² > 4·v` when `v ≥ 0`: the
float condition the source writes with `std = √var` coincides with the
squared form the rational embedding computes. -/
lemma abs_sub_gt_two_sqrt_iff (v d : ℝ) (hv : 0 ≤ v) :
    4 * v < d ^ 2 ↔ 2 * Real.sqrt v < |d| := by
  have h4 : 2 * Real.sqrt v = Real.sqrt (4 * v) := by
    rw [show (4 : ℝ) * v = 2 ^ 2 * v by ring, Real.sqrt_mul (by positivity) v,
      Real.sqrt_sq (by norm_num)]
  rw [h4, ← Real.sqrt_sq_eq_abs d]
  constructor
  · intro h
    exact Real.sqrt_lt_sqrt (by positivity) h
  · intro h
    by_contra hc
    push_neg at hc
    exact absurd (Real.sqrt_le_sqrt hc) (not_le.mpr h)

/-- C5: when the global mean and standard deviation over the non-missing
loads exist, a record's anomaly flag is `1` iff its load is defined and
deviates from the mean by strictly more than two standard deviations
(`std = √var_load`); a record with missing load is always flagged `0`. -/
theorem anomaly_iff_two_sigma (hs : List (Option ℚ)) (l : Option ℚ) :
    (l = none → anomaly hs l = 0) ∧
    (∀ m v : ℚ, mean_load hs = some m → var_load hs = some v →
      (anomaly hs l = 1 ↔
        ∃ x : ℚ, l = some x ∧
          2 * Real.sqrt (v : ℝ) < |(x : ℝ) - (m : ℝ)|)) := by
  constructor
  · rintro rfl
    rfl
  · intro m v hm hv
    cases l with
    | none =>
      constructor
      · intro h
        exact absurd h (by simp [anomaly])
      · rintro ⟨x, hx, -⟩
        exact Option.noConfusion hx
    | some x =>
      have heq : anomaly hs (some x) = if 4 * v < (x - m) ^ 2 then 1 else 0 := by
        unfold anomaly
        rw [hm, hv]
      have hvr : (0 : ℝ) ≤ (v : ℝ) := by
        exact_mod_cast var_load_nonneg hs v hv
      have hbridge := abs_sub_gt_two_sqrt_iff (v : ℝ) ((x : ℝ) - (m : ℝ)) hvr
      rw [heq]
      by_cases hc : 4 * v < (x - m) ^ 2
      · rw [if_pos hc]
        have hcr : (4 : ℝ) * (v : ℝ) < ((x : ℝ) - (m : ℝ)) ^ 2 := by
          exact_mod_cast hc
        constructor
        · intro _
          exact ⟨x, rfl, hbridge.mp hcr⟩
        · intro _
          rfl
      · rw [if_neg hc]
        constructor
        · intro h
          exact absurd h (by norm_num)
        · rintro ⟨y, hy, habs⟩
          rw [Option.some_inj] at hy
          subst hy
          refine absurd ?_ hc
          have := hbridge.mpr habs
          exact_mod_cast this

/-- C5 witness at the series `[6, 0, 0, 0, 0, 0]` (mean `1`, variance `6`)
with the anomalous load `6`. -/
theorem anomaly_iff_two_sigma_witness :
    ∃ x : ℚ, (some (6:ℚ) : Option ℚ) = some x ∧
      2 * Real.sqrt ((6:ℚ) : ℝ) < |(x : ℝ) - ((1:ℚ) : ℝ)| :=
  ((anomaly_iff_two_sigma [some 6, some 0, some 0, some 0, some 0, some 0]
        (some 6)).2 1 6
      (by norm_num [mean_load, definedLoads, listMean, List.filterMap_cons,
        List.filterMap_nil])
      (by norm_num [var_load, definedLoads, listMean, List.filterMap_cons,
        List.filterMap_nil])).mp
    (by norm_num [anomaly, mean_load, var_load, definedLoads, listMean,
      List.filterMap_cons, List.filterMap_nil])

/-- For `23 ≤ i < hs.length`, the trailing window of `rolling(24)` at
position `i` is exactly the 24 entries `hs[i-23], …, hs[i]`. -/
lemma trailing_window_eq (hs : List (Option ℚ)) (i : ℕ)
    (h23 : 23 ≤ i) (hi : i < hs.length) :
    (hs.take (i + 1)).drop (i + 1 - 24) =
      (List.range 24).map (fun k => hs.getD (i - 23 + k) none) := by
  apply List.ext_getElem
  · simp only [List.length_drop, List.length_take, List.length_map, List.length_range]
    omega
  · intro n h1 h2
    have hn24 : n < 24 := by
      simp only [List.length_drop, List.length_take] at h1
      omega
    have hb : i - 23 + n < hs.length := by omega
    rw [List.getElem_drop, List.getElem_take, List.getElem_map, List.getElem_range]
    rw [List.getD_eq_getElem hs none hb]
    have hidx : i + 1 - 24 + n = i - 23 + n := by omega
    simp only [hidx]

lemma length_filterMap_id_lt {α : Type} {l : List (Option α)} (h : none ∈ l) :
    (l.filterMap id).length < l.length := by
  induction l with
  | nil => cases h
  | cons a t ih =>
    cases a with
    | none =>
      simp only [List.filterMap_cons, id, List.length_cons]
      exact Nat.lt_succ_of_le (List.length_filterMap_le id t)
    | some x =>
      rcases List.mem_cons.mp h with h' | h'
      · exact absurd h'.symm (by simp)
      · simp only [List.filterMap_cons, id, List.length_cons]
        exact Nat.succ_lt_succ (ih h')

/-- C6: for a record index `i` of the hourly series, the rolling trend is
undefined when `i < 23`; for `i ≥ 23` it is undefined as soon as one load of
the window `hs[i-23..i]` is missing, and when all 24 are defined it equals
their arithmetic mean `(Σ load[i-23..i]) / 24`. -/
theorem rolling_24h_spec (hs : List (Option ℚ)) (i : ℕ) (hi : i < hs.length) :
    (i < 23 → rolling_24h hs i = none) ∧
    (23 ≤ i → (∃ k, k < 24 ∧ hs.getD (i - 23 + k) none = none) →
      rolling_24h hs i = none) ∧
    (23 ≤ i → ∀ xs : List ℚ,
      (List.range 24).map (fun k => hs.getD (i - 23 + k) none) = xs.map some →
      rolling_24h hs i = some (xs.sum / 24)) := by
  refine ⟨?_, ?_, ?_⟩
  · intro h23
    have hwin : ((hs.take (i + 1)).drop (i + 1 - 24)).length ≤ i + 1 := by
      simp only [List.length_drop, List.length_take]
      omega
    have hobs := List.length_filterMap_le id ((hs.take (i + 1)).drop (i + 1 - 24))
    unfold rolling_24h
    rw [if_pos (by omega)]
  · rintro h23 ⟨k, hk, hnone⟩
    have hwin := trailing_window_eq hs i h23 hi
    have hmem : none ∈ (hs.take (i + 1)).drop (i + 1 - 24) := by
      rw [hwin]
      exact List.mem_map.mpr ⟨k, List.mem_range.mpr hk, hnone⟩
    have hlt := length_filterMap_id_lt hmem
    have hlen : ((hs.take (i + 1)).drop (i + 1 - 24)).length = 24 := by
      simp only [List.length_drop, List.length_take]
      omega
    unfold rolling_24h
    rw [if_pos (by omega)]
  · intro h23 xs hxs
    have hwin := trailing_window_eq hs i h23 hi
    rw [hxs] at hwin
    have hxslen : xs.length = 24 := by
      have := congrArg List.length hxs
      simpa using this.symm
    unfold rolling_24h
    rw [hwin, List.filterMap_map]
    have hfm : (xs.filterMap (id ∘ some)) = xs := by
      simp [Function.comp]
    rw [hfm, if_neg (by omega)]
    unfold listMean
    rw [hxslen]
    norm_num

/-- C6 witness: a constant series of 24 defined loads has rolling value
equal to their mean at index 23. -/
theorem rolling_24h_spec_witness :
    rolling_24h (List.replicate 24 (some (1:ℚ))) 23 =
      some ((List.replicate 24 (1:ℚ)).sum / 24) :=
  (rolling_24h_spec (List.replicate 24 (some (1:ℚ))) 23 (by simp)).2.2
    (by norm_num) (List.replicate 24 (1:ℚ)) (by decide)

lemma foldl_min_le (ps : List (ℕ × ℚ)) (a : ℕ) :
    ps.foldl (fun b q => min b q.1) a ≤ a := by
  induction ps generalizing a with
  | nil => exact le_refl a
  | cons q t ih => exact le_trans (ih (min a q.1)) (min_le_left a q.1)

lemma le_foldl_max (ps : List (ℕ × ℚ)) (a : ℕ) :
    a ≤ ps.foldl (fun b q => max b q.1) a := by
  induction ps generalizing a with
  | nil => exact le_refl a
  | cons q t ih => exact le_trans (le_max_left a q.1) (ih (max a q.1))

lemma tsMin_le_tsMax (rows : List (ℕ × ℚ)) (h : rows ≠ []) :
    tsMin rows ≤ tsMax rows := by
  cases rows with
  | nil => exact absurd rfl h
  | cons r rs =>
    exact le_trans (foldl_min_le rs r.1) (le_foldl_max rs r.1)

/-- C1: for every nonempty cleaned series the aggregator emits exactly one
record per calendar hour (the hour column has no duplicates), the hours
present are exactly those of the inclusive span from the hour of the
earliest timestamp to the hour of the latest, a record's load is missing
when its hour has no samples, and a defined load equals the arithmetic mean
of exactly the samples of that hour; the two-row scenario at 00:15 and 00:45
yields the single record `(hour 0, load 20)`. -/
theorem hourly_data_spec (rows : List (ℕ × ℚ)) (hne : rows ≠ []) :
    ((hourly_data rows).map Prod.fst).Nodup ∧
    (∀ h : ℕ, h ∈ (hourly_data rows).map Prod.fst ↔
      hourOf (tsMin rows) ≤ h ∧ h ≤ hourOf (tsMax rows)) ∧
    (∀ p ∈ hourly_data rows,
      (samplesInHour rows p.1 = [] → p.2 = none) ∧
      ∀ x : ℚ, p.2 = some x → samplesInHour rows p.1 ≠ [] ∧
        x = (samplesInHour rows p.1).sum / ((samplesInHour rows p.1).length : ℚ)) ∧
    hourly_data [(900, (10:ℚ)), (2700, 30)] = [(0, some 20)] := by
  have hspan : hourOf (tsMin rows) ≤ hourOf (tsMax rows) :=
    Nat.div_le_div_right (tsMin_le_tsMax rows hne)
  have hform : hourly_data rows =
      (List.range' (hourOf (tsMin rows))
        (hourOf (tsMax rows) - hourOf (tsMin rows) + 1)).map
        (fun h => (h, bucketLoad rows h)) := by
    cases rows with
    | nil => exact absurd rfl hne
    | cons r rs => rfl
  have hfst : (hourly_data rows).map Prod.fst =
      List.range' (hourOf (tsMin rows))
        (hourOf (tsMax rows) - hourOf (tsMin rows) + 1) := by
    rw [hform, List.map_map]
    exact List.map_id _
  refine ⟨?_, ?_, ?_, ?_⟩
  · rw [hfst]
    exact List.nodup_range' _ _
  · intro h
    rw [hfst, List.mem_range'_1]
    omega
  · intro p hp
    rw [hform, List.mem_map] at hp
    obtain ⟨h, -, rfl⟩ := hp
    constructor
    · intro hempty
      simp only [bucketLoad, hempty, List.isEmpty_nil, if_pos]
    · intro x hx
      simp only [bucketLoad] at hx
      by_cases hempty : (samplesInHour rows h).isEmpty
      · rw [if_pos hempty] at hx
        exact absurd hx (by simp)
      · rw [if_neg hempty] at hx
        rw [Option.some_inj] at hx
        refine ⟨by simpa [List.isEmpty_iff] using hempty, ?_⟩
        rw [← hx]
        rfl
  · norm_num [hourly_data, tsMin, tsMax, hourOf, bucketLoad, samplesInHour,
      listMean, List.range']

/-- C1 witness: the scenario series has pairwise distinct output hours. -/
theorem hourly_data_spec_witness :
    ((hourly_data [(900, (10:ℚ)), (2700, 30)]).map Prod.fst).Nodup :=
  (hourly_data_spec [(900, (10:ℚ)), (2700, 30)] (List.cons_ne_nil _ _)).1

end EnergyAnalysis
